import Mathlib

/-!
Verification development for the ComfyUI-AutoNotes extension
(`src/autonotes.py`).  The Python source is shallowly embedded below:
dataclasses become structures, `Dict[str, T]` (an insertion-ordered map)
becomes an association list `List (String × T)`, Python `None` becomes
`Option.none`, and the JSON values appearing in runtime contexts become the
`AttrValue` type with `AttrValue.toStr` standing for Python's `str()`.
-/

namespace AutoNotes

/-- Embeds the `TriggerCondition` dataclass (src/autonotes.py lines 11-18).
All optional fields default to `None` in the source. -/
structure TriggerCondition where
  type : String
  node_types : Option (List String) := none
  node_type : Option String := none
  attribute_name : Option String := none
  attribute_values : Option (List String) := none
  workflow_names : Option (List String) := none
deriving DecidableEq, Repr

/-- Embeds the `Note` dataclass (src/autonotes.py lines 21-34).  The
`__post_init__` hook replaces `tags = None` by `[]`, so a constructed note
always carries a plain list of tags. -/
structure Note where
  uuid : String
  folder_uuid : Option String
  content : String
  format_style : String
  trigger_conditions : List TriggerCondition
  pinned : Bool := false
  name : String := ""
  tags : List String := []
deriving DecidableEq, Repr

/-- Embeds the `Folder` dataclass (src/autonotes.py lines 37-41). -/
structure Folder where
  uuid : String
  parent_uuid : Option String
  name : String
deriving DecidableEq, Repr

/-- A JSON scalar as it appears in `selected_node_attributes` /
`workflow_nodes` values (typed `Any` in the source).  `toStr` mirrors
Python's `str()` on these values. -/
inductive AttrValue where
  | s (v : String)
  | i (v : Int)
  | b (v : Bool)
  | null
deriving DecidableEq, Repr

/-- Python `str()` applied to an `AttrValue` (src/autonotes.py lines 200,
219 apply `str` to attribute values before the substring test). -/
def AttrValue.toStr : AttrValue → String
  | .s v => v
  | .i v => toString v
  | .b true => "True"
  | .b false => "False"
  | .null => "None"

/-- Python's `needle in haystack` on strings: contiguous substring
containment. -/
def isSubstrOf (needle hay : String) : Bool :=
  decide (needle.toList <:+: hay.toList)

/-- Lookup in an insertion-ordered association list, modelling Python
`dict` access (`d[k]`) and membership (`k in d`): `lookupKey d k = some v`
iff `k in d` with `d[k] = v`. -/
def lookupKey {α : Type} : List (String × α) → String → Option α
  | [], _ => none
  | p :: rest, k => if p.1 = k then some p.2 else lookupKey rest k

/-- The runtime context handed to `get_notes_for_display` /
`_check_trigger_condition` (src/autonotes.py lines 160-163): the four
optional keyword arguments, bundled. -/
structure DisplayContext where
  selected_node_type : Option String := none
  selected_node_attributes : Option (List (String × AttrValue)) := none
  workflow_name : Option String := none
  workflow_nodes : Option (List (String × List (String × AttrValue))) := none
deriving DecidableEq, Repr

/-- Embeds `AutoNotesManager._check_trigger_condition`
(src/autonotes.py lines 184-229), branch for branch.  Note that in the
`node_selected_attribute` branch the source compares
`selected_node_type == condition.node_type` directly, which in Python is
also true when both sides are `None`; the embedding keeps that `Option`
equality. -/
def check_trigger_condition (condition : TriggerCondition)
    (ctx : DisplayContext) : Bool :=
  if condition.type = "node_selected" then
    match ctx.selected_node_type, condition.node_types with
    | some snt, some nts => nts.contains snt
    | _, _ => false
  else if condition.type = "node_selected_attribute" then
    if ctx.selected_node_type = condition.node_type then
      match ctx.selected_node_attributes with
      | none => false
      | some attrs =>
        match condition.attribute_name with
        | none => false
        | some an =>
          match lookupKey attrs an, condition.attribute_values with
          | some v, some avs => avs.any (fun s => isSubstrOf s v.toStr)
          | _, _ => false
    else false
  else if condition.type = "node_in_workflow" then
    match ctx.workflow_nodes, condition.node_types with
    | some wns, some nts => nts.any (fun nt => (lookupKey wns nt).isSome)
    | _, _ => false
  else if condition.type = "node_in_workflow_attribute" then
    match ctx.workflow_nodes, condition.node_type, condition.attribute_name with
    | some wns, some nt, some an =>
      match lookupKey wns nt with
      | none => false
      | some node_attrs =>
        match lookupKey node_attrs an with
        | none => false
        | some v =>
          match condition.attribute_values with
          | some avs =>
            if avs.length > 0 then avs.any (fun s => isSubstrOf s v.toStr)
            else true
          | none => true
    | _, _, _ => false
  else if condition.type = "workflow_name" then
    match ctx.workflow_name, condition.workflow_names with
    | some wn, some wnames => wnames.any (fun s => isSubstrOf s wn)
    | _, _ => false
  else false

/-- The automatic-mode loop of `get_notes_for_display`
(src/autonotes.py lines 168-182): walk the notes in storage order; a
pinned note is appended immediately, otherwise the note is appended when
some trigger condition checks true (`break` after the first hit). -/
def selectAutomatic (ctx : DisplayContext) : List Note → List Note
  | [] => []
  | n :: rest =>
    if n.pinned then n :: selectAutomatic ctx rest
    else if n.trigger_conditions.any (fun c => check_trigger_condition c ctx) then
      n :: selectAutomatic ctx rest
    else selectAutomatic ctx rest

/-- Embeds `AutoNotesManager.get_notes_for_display`
(src/autonotes.py lines 160-182).  `notes` is `self.notes.values()` in
storage (insertion) order. -/
def get_notes_for_display (notes : List Note) (mode : String)
    (ctx : DisplayContext) : List Note :=
  if mode = "all" then notes else selectAutomatic ctx notes

/-- The in-memory state of an `AutoNotesManager` (src/autonotes.py lines
44-58): two insertion-ordered dictionaries keyed by uuid. -/
structure ManagerState where
  notes : List (String × Note)
  folders : List (String × Folder)
deriving DecidableEq, Repr

/-- A value supplied for one keyword argument of `update_note`.  The
source is untyped Python; the embedding covers the value shapes the `Note`
fields actually carry. -/
inductive FieldValue where
  | vStr (v : String)
  | vOptStr (v : Option String)
  | vBool (v : Bool)
  | vConds (v : List TriggerCondition)
  | vStrList (v : List String)
deriving DecidableEq, Repr

/-- The attribute names of the `Note` dataclass, i.e. the keys for which
`hasattr(note, key)` holds on a `Note`'s data fields
(src/autonotes.py lines 21-34). -/
def noteFieldNames : List String :=
  ["uuid", "folder_uuid", "content", "format_style",
   "trigger_conditions", "pinned", "name", "tags"]

/-- One iteration of the `update_note` loop (src/autonotes.py lines
135-137): `if hasattr(note, key): setattr(note, key, value)`.  A key that
is not a `Note` attribute leaves the note untouched (an unrecognized key);
a recognized key replaces the named field with the supplied value. -/
def setattrNote (n : Note) (kv : String × FieldValue) : Note :=
  if kv.1 = "uuid" then
    match kv.2 with | .vStr s => { n with uuid := s } | _ => n
  else if kv.1 = "folder_uuid" then
    match kv.2 with | .vOptStr s => { n with folder_uuid := s } | _ => n
  else if kv.1 = "content" then
    match kv.2 with | .vStr s => { n with content := s } | _ => n
  else if kv.1 = "format_style" then
    match kv.2 with | .vStr s => { n with format_style := s } | _ => n
  else if kv.1 = "trigger_conditions" then
    match kv.2 with | .vConds cs => { n with trigger_conditions := cs } | _ => n
  else if kv.1 = "pinned" then
    match kv.2 with | .vBool b => { n with pinned := b } | _ => n
  else if kv.1 = "name" then
    match kv.2 with | .vStr s => { n with name := s } | _ => n
  else if kv.1 = "tags" then
    match kv.2 with | .vStrList ts => { n with tags := ts } | _ => n
  else n

/-- Reads the field of a `Note` named by a string, as a `FieldValue`;
`none` for a string that is not a `Note` attribute.  Used to state
frame conditions of `update_note`. -/
def getattrNote (n : Note) (k : String) : Option FieldValue :=
  if k = "uuid" then some (.vStr n.uuid)
  else if k = "folder_uuid" then some (.vOptStr n.folder_uuid)
  else if k = "content" then some (.vStr n.content)
  else if k = "format_style" then some (.vStr n.format_style)
  else if k = "trigger_conditions" then some (.vConds n.trigger_conditions)
  else if k = "pinned" then some (.vBool n.pinned)
  else if k = "name" then some (.vStr n.name)
  else if k = "tags" then some (.vStrList n.tags)
  else none

/-- Embeds `AutoNotesManager.update_note` (src/autonotes.py lines
130-140): return `False` for an unknown uuid; otherwise apply each keyword
argument in order to the stored note (in place, so the dictionary key is
unchanged), persist, and return `True`. -/
def update_note (st : ManagerState) (note_uuid : String)
    (kwargs : List (String × FieldValue)) : Bool × ManagerState :=
  match lookupKey st.notes note_uuid with
  | none => (false, st)
  | some _ =>
    (true,
     { st with
       notes := st.notes.map (fun p =>
         if p.1 = note_uuid then (p.1, kwargs.foldl setattrNote p.2) else p) })

/-- Embeds the `delete_folder` route handler (src/autonotes.py lines
408-429): unknown uuid answers failure and changes nothing; otherwise
every note referencing the folder gets `folder_uuid = None` (notes are
persisted), then the folder entry is removed (folders are persisted) and
success is answered. -/
def delete_folder (st : ManagerState) (folder_uuid : String) :
    Bool × ManagerState :=
  match lookupKey st.folders folder_uuid with
  | none => (false, st)
  | some _ =>
    let notes' := st.notes.map (fun p =>
      if p.2.folder_uuid = some folder_uuid then
        (p.1, { p.2 with folder_uuid := none })
      else p)
    let folders' := st.folders.filter (fun p => p.1 ≠ folder_uuid)
    (true, { notes := notes', folders := folders' })

/-- Embeds `AutoNotesManager._save_notes` (src/autonotes.py lines
94-106): the persisted file is the JSON array of the notes' records in
storage order.  JSON text encoding is bijective on these records, so the
snapshot is modelled as the record list itself. -/
def save_notes (notes : List (String × Note)) : List Note :=
  notes.map (fun p => p.2)

/-- Embeds `AutoNotesManager._save_folders` (src/autonotes.py lines
108-114), like `save_notes`. -/
def save_folders (folders : List (String × Folder)) : List Folder :=
  folders.map (fun p => p.2)

/-- Python `d[k] = v` on an insertion-ordered dict: replace in place when
the key exists, else append. -/
def insertEntry {α : Type} (l : List (String × α)) (k : String) (v : α) :
    List (String × α) :=
  if (lookupKey l k).isSome then
    l.map (fun p => if p.1 = k then (k, v) else p)
  else l ++ [(k, v)]

/-- The dictionary-building loop shared by `_load_notes` and
`_load_folders`: `d[record.uuid] = record` over the file's records in
order. -/
def load_dict {α : Type} (key : α → String) (l : List α) :
    List (String × α) :=
  l.foldl (fun acc v => insertEntry acc (key v) v) []

/-- Embeds `AutoNotesManager._load_notes` (src/autonotes.py lines 60-78)
on a readable file: each record is rebuilt (trigger conditions included)
and keyed by its `uuid` field. -/
def load_notes (data : List Note) : List (String × Note) :=
  load_dict Note.uuid data

/-- Embeds `AutoNotesManager._load_folders` (src/autonotes.py lines
80-92) on a readable file. -/
def load_folders (data : List Folder) : List (String × Folder) :=
  load_dict Folder.uuid data

/-- Outcome of the underlying file write attempted by `_save_notes` /
`_save_folders`. -/
inductive WriteOutcome where
  | ok
  | ioError (msg : String)
deriving DecidableEq, Repr

/-- The `try/except` of `_save_notes` (src/autonotes.py lines 94-106):
a raised exception is caught and printed, nothing propagates.  The value
returned is the list of log lines printed — the only trace a failure
leaves. -/
def save_notes_logged (w : WriteOutcome) : List String :=
  match w with
  | .ok => []
  | .ioError e => ["AutoNotes: Error saving notes: " ++ e]

/-- `update_note` with the persistence write made explicit
(src/autonotes.py lines 130-140 calling lines 94-106): the boolean
returned to the caller together with the new state and the log output of
`_save_notes`.  The write outcome `w` does not influence the returned
boolean, because `_save_notes` swallows the exception. -/
def update_note_with_io (st : ManagerState) (note_uuid : String)
    (kwargs : List (String × FieldValue)) (w : WriteOutcome) :
    Bool × ManagerState × List String :=
  match lookupKey st.notes note_uuid with
  | none => (false, st, [])
  | some _ =>
    (true,
     { st with
       notes := st.notes.map (fun p =>
         if p.1 = note_uuid then (p.1, kwargs.foldl setattrNote p.2) else p) },
     save_notes_logged w)

/-- Formalization of the hypothesis of the absence claim: some field
required by the condition's kind is `None` on the condition, or the
context field that kind reads is `None`.  (`attribute_values` is optional
for `node_in_workflow_attribute`, required for
`node_selected_attribute`.) -/
def missing_required_field (c : TriggerCondition) (ctx : DisplayContext) :
    Prop :=
  (c.type = "node_selected" ∧
    (c.node_types = none ∨ ctx.selected_node_type = none)) ∨
  (c.type = "node_selected_attribute" ∧
    (c.node_type = none ∨ c.attribute_name = none ∨
     c.attribute_values = none ∨ ctx.selected_node_type = none ∨
     ctx.selected_node_attributes = none)) ∨
  (c.type = "node_in_workflow" ∧
    (c.node_types = none ∨ ctx.workflow_nodes = none)) ∨
  (c.type = "node_in_workflow_attribute" ∧
    (c.node_type = none ∨ c.attribute_name = none ∨
     ctx.workflow_nodes = none)) ∨
  (c.type = "workflow_name" ∧
    (c.workflow_names = none ∨ ctx.workflow_name = none))

instance (c : TriggerCondition) (ctx : DisplayContext) :
    Decidable (missing_required_field c ctx) := by
  unfold missing_required_field; infer_instance

/-! Concrete fixtures used to instantiate the theorems below. -/

/-- An empty runtime context: every optional field absent. -/
def ctx0 : DisplayContext := {}

/-- Context whose workflow is named `my-prod-pipeline`. -/
def ctxProd : DisplayContext := { workflow_name := some "my-prod-pipeline" }

/-- Context with node `X` selected carrying attribute `res = "512x512"`. -/
def ctxAttr : DisplayContext :=
  { selected_node_type := some "X",
    selected_node_attributes := some [("res", .s "512x512")] }

/-- Context whose workflow contains a node of type `K` with attribute
`a = 7`. -/
def ctxWfNodes : DisplayContext :=
  { workflow_nodes := some [("K", [("a", .i 7)])] }

/-- Context with no selected node type but with selected-node attributes
present (the host can send attributes without a type). -/
def ctxNoSelType : DisplayContext :=
  { selected_node_attributes := some [("res", .s "512x512")] }

/-- Condition: workflow name contains `prod`. -/
def condWfName : TriggerCondition :=
  { type := "workflow_name", workflow_names := some ["prod"] }

/-- Condition: node `X` selected with attribute `res` containing `512`. -/
def condSelAttr : TriggerCondition :=
  { type := "node_selected_attribute", node_type := some "X",
    attribute_name := some "res", attribute_values := some ["512"] }

/-- Condition: workflow has a `K` node carrying attribute `a`; the empty
`attribute_values` asks for mere presence. -/
def condPresence : TriggerCondition :=
  { type := "node_in_workflow_attribute", node_type := some "K",
    attribute_name := some "a", attribute_values := some [] }

/-- Malformed condition: `node_selected_attribute` with its required
`node_type` field absent. -/
def condNoNodeType : TriggerCondition :=
  { type := "node_selected_attribute",
    attribute_name := some "res", attribute_values := some ["512"] }

/-- Malformed condition: `node_selected` with its required `node_types`
field absent. -/
def condMissingTypes : TriggerCondition :=
  { type := "node_selected" }

/-- A pinned note with no trigger conditions. -/
def notePinned : Note :=
  { uuid := "n1", folder_uuid := none, content := "", format_style := "plaintext",
    trigger_conditions := [], pinned := true }

/-- A non-pinned note with no trigger conditions. -/
def noteNoCond : Note :=
  { uuid := "n2", folder_uuid := none, content := "", format_style := "plaintext",
    trigger_conditions := [] }

/-- A non-pinned note triggered by workflow names containing `prod`. -/
def noteProd : Note :=
  { uuid := "n3", folder_uuid := none, content := "", format_style := "plaintext",
    trigger_conditions := [condWfName] }

/-- A folder and a note referencing it, for the folder-deletion claim. -/
def folderF1 : Folder := { uuid := "f1", parent_uuid := none, name := "F" }

/-- A note stored in folder `f1`. -/
def noteInF1 : Note :=
  { uuid := "n4", folder_uuid := some "f1", content := "", format_style := "plaintext",
    trigger_conditions := [] }

/-- Manager state holding folder `f1` and a note inside it. -/
def stWithFolder : ManagerState :=
  { notes := [("n4", noteInF1)], folders := [("f1", folderF1)] }

/-- Manager state holding a single note and no folders. -/
def stOneNote : ManagerState :=
  { notes := [("n2", noteNoCond)], folders := [] }

/-- A well-formed two-note collection for the round-trip claim. -/
def ns0 : List (String × Note) := [("n2", noteNoCond), ("n3", noteProd)]

/-- A well-formed one-folder collection for the round-trip claim. -/
def fs0 : List (String × Folder) := [("f1", folderF1)]

/-- A keyword-argument pair naming a `Note` attribute together with a
value of that attribute's shape — exactly the pairs `setattrNote`
applies. -/
def recognizedPair (kv : String × FieldValue) : Bool :=
  match kv.2 with
  | .vStr _ => kv.1 = "uuid" || kv.1 = "content" ||
               kv.1 = "format_style" || kv.1 = "name"
  | .vOptStr _ => kv.1 = "folder_uuid"
  | .vBool _ => kv.1 = "pinned"
  | .vConds _ => kv.1 = "trigger_conditions"
  | .vStrList _ => kv.1 = "tags"

/-! Helper lemmas shared by the claim theorems. -/

/-- The automatic-mode loop is a filter: a note is kept exactly when it is
pinned or some trigger condition checks true. -/
theorem selectAutomatic_eq_filter (ctx : DisplayContext) (l : List Note) :
    selectAutomatic ctx l =
      l.filter (fun n =>
        n.pinned || n.trigger_conditions.any
          (fun c => check_trigger_condition c ctx)) := by
  induction l with
  | nil => rfl
  | cons n t ih =>
    cases hp : n.pinned <;>
      cases ha : n.trigger_conditions.any (fun c => check_trigger_condition c ctx) <;>
        simp [selectAutomatic, List.filter_cons, hp, ha, ih]

/-! Claim theorems. -/

/-- Claim C1: a pinned note is included by `get_notes_for_display` in any
non-`"all"` mode, for every runtime context, regardless of its trigger
conditions. -/
theorem pinned_note_always_displayed (notes : List Note) (mode : String)
    (ctx : DisplayContext) (n : Note)
    (hm : mode ≠ "all") (hmem : n ∈ notes) (hp : n.pinned = true) :
    n ∈ get_notes_for_display notes mode ctx := by
  unfold get_notes_for_display
  rw [if_neg hm, selectAutomatic_eq_filter]
  exact List.mem_filter.mpr ⟨hmem, by simp [hp]⟩

/-- Witness for C1: the pinned fixture note is displayed in automatic mode
under the empty context. -/
theorem pinned_note_always_displayed_witness :
    notePinned ∈ get_notes_for_display [notePinned, noteNoCond] "automatic" ctx0 :=
  pinned_note_always_displayed [notePinned, noteNoCond] "automatic" ctx0 notePinned
    (by decide) (List.mem_cons_self _ _) rfl

/-- Claim C2: in any non-`"all"` mode, a non-pinned stored note is
displayed iff some one of its trigger conditions checks true; in
particular a non-pinned note with no conditions is never displayed. -/
theorem nonpinned_note_displayed_iff (notes : List Note) (mode : String)
    (ctx : DisplayContext) (n : Note)
    (hm : mode ≠ "all") (hp : n.pinned = false) :
    (n ∈ notes →
      (n ∈ get_notes_for_display notes mode ctx ↔
        ∃ c ∈ n.trigger_conditions, check_trigger_condition c ctx = true)) ∧
    (n.trigger_conditions = [] →
      n ∉ get_notes_for_display notes mode ctx) := by
  unfold get_notes_for_display
  rw [if_neg hm, selectAutomatic_eq_filter]
  constructor
  · intro hmem
    rw [List.mem_filter]
    simp [hmem, hp, List.any_eq_true]
  · intro hempty hmem
    rw [List.mem_filter] at hmem
    simp [hp, hempty] at hmem

/-- Witness for C2: the `prod`-triggered fixture note, displayed iff one
of its conditions fires, and never displayed once its condition list is
empty. -/
theorem nonpinned_note_displayed_iff_witness :
    (noteProd ∈ [noteProd] →
      (noteProd ∈ get_notes_for_display [noteProd] "automatic" ctxProd ↔
        ∃ c ∈ noteProd.trigger_conditions,
          check_trigger_condition c ctxProd = true)) ∧
    (noteProd.trigger_conditions = [] →
      noteProd ∉ get_notes_for_display [noteProd] "automatic" ctxProd) :=
  nonpinned_note_displayed_iff [noteProd] "automatic" ctxProd noteProd
    (by decide) rfl

/-- Claim C3: list-valued comparisons are substring tests — the
`workflow_name` and `node_selected_attribute` kinds reduce to "some stored
candidate is a substring of the stringified actual value", and the two
concrete spec examples (`"prod"` inside `"my-prod-pipeline"`, `"512"`
inside `"512x512"`) both match even though neither is an exact equality. -/
theorem substring_match_semantics :
    (∀ (c : TriggerCondition) (ctx : DisplayContext) (wn : String)
        (ws : List String),
      c.type = "workflow_name" → c.workflow_names = some ws →
      ctx.workflow_name = some wn →
      check_trigger_condition c ctx = ws.any (fun s => isSubstrOf s wn)) ∧
    (∀ (c : TriggerCondition) (ctx : DisplayContext) (t an : String)
        (attrs : List (String × AttrValue)) (v : AttrValue) (avs : List String),
      c.type = "node_selected_attribute" →
      c.node_type = some t → ctx.selected_node_type = some t →
      c.attribute_name = some an →
      ctx.selected_node_attributes = some attrs →
      lookupKey attrs an = some v →
      c.attribute_values = some avs →
      check_trigger_condition c ctx = avs.any (fun s => isSubstrOf s v.toStr)) ∧
    check_trigger_condition condWfName ctxProd = true ∧
    check_trigger_condition condSelAttr ctxAttr = true := by
  refine ⟨?_, ?_, by decide, by decide⟩
  · intro c ctx wn ws ht hws hwn
    simp [check_trigger_condition, ht, hws, hwn]
  · intro c ctx t an attrs v avs ht hnt hsnt han hsa hlk hav
    simp [check_trigger_condition, ht, hnt, hsnt, han, hsa, hlk, hav]

/-- Witness for C3: the general substring characterization applied to the
concrete `prod` example. -/
theorem substring_match_semantics_witness :
    check_trigger_condition condWfName ctxProd =
      (["prod"].any (fun s => isSubstrOf s "my-prod-pipeline")) :=
  substring_match_semantics.1 condWfName ctxProd "my-prod-pipeline" ["prod"]
    rfl rfl rfl

/-- Claim C4: a `node_in_workflow_attribute` condition with empty or
absent `attribute_values` matches as soon as its node type is a key of the
workflow node map and that node's attribute map contains the attribute
name, whatever the attribute's value. -/
theorem presence_only_attribute_match (c : TriggerCondition)
    (ctx : DisplayContext) (nt an : String)
    (wns : List (String × List (String × AttrValue)))
    (node_attrs : List (String × AttrValue)) (v : AttrValue)
    (ht : c.type = "node_in_workflow_attribute")
    (hnt : c.node_type = some nt) (han : c.attribute_name = some an)
    (hwns : ctx.workflow_nodes = some wns)
    (hkey : lookupKey wns nt = some node_attrs)
    (hattr : lookupKey node_attrs an = some v)
    (hav : c.attribute_values = none ∨ c.attribute_values = some []) :
    check_trigger_condition c ctx = true := by
  rcases hav with hav | hav <;>
    simp [check_trigger_condition, ht, hnt, han, hwns, hkey, hattr, hav]

/-- Witness for C4: the presence-only fixture condition fires on the
workflow containing a `K` node with attribute `a = 7`. -/
theorem presence_only_attribute_match_witness :
    check_trigger_condition condPresence ctxWfNodes = true :=
  presence_only_attribute_match condPresence ctxWfNodes "K" "a"
    [("K", [("a", .i 7)])] [("a", .i 7)] (.i 7)
    rfl rfl rfl rfl rfl rfl (Or.inr rfl)

/-- Counterexample to claim C5 as stated: a `node_selected_attribute`
condition whose required `node_type` is absent still matches a context
whose selected node type is also absent, because the source compares
`selected_node_type == condition.node_type` and `None == None` holds. -/
theorem missing_field_match_cex :
    missing_required_field condNoNodeType ctxNoSelType ∧
    check_trigger_condition condNoNodeType ctxNoSelType = true := by
  exact ⟨by decide, by decide⟩

/-- Claim C5 (amended): if some field required by the condition's kind is
absent on the condition or in the context, the condition checks false —
except in the one case the counterexample exhibits, a
`node_selected_attribute` condition whose `node_type` and the context's
selected node type are both absent (there `None == None` lets the
attribute test proceed). -/
theorem missing_field_no_match_amended (c : TriggerCondition)
    (ctx : DisplayContext)
    (hmiss : missing_required_field c ctx)
    (hexc : ¬(c.type = "node_selected_attribute" ∧ c.node_type = none ∧
              ctx.selected_node_type = none)) :
    check_trigger_condition c ctx = false := by
  rcases hmiss with ⟨ht, h⟩ | ⟨ht, h⟩ | ⟨ht, h⟩ | ⟨ht, h⟩ | ⟨ht, h⟩
  · rcases h with h | h <;> simp [check_trigger_condition, ht, h]
  · rcases h with h | h | h | h | h
    · rcases hsnt : ctx.selected_node_type with _ | s
      · exact absurd ⟨ht, h, hsnt⟩ hexc
      · simp [check_trigger_condition, ht, h, hsnt]
    · by_cases he : ctx.selected_node_type = c.node_type
      · rcases hsa : ctx.selected_node_attributes with _ | attrs <;>
          simp [check_trigger_condition, ht, he, hsa, h]
      · simp [check_trigger_condition, ht, he]
    · by_cases he : ctx.selected_node_type = c.node_type
      · rcases hsa : ctx.selected_node_attributes with _ | attrs
        · simp [check_trigger_condition, ht, he, hsa]
        · rcases han : c.attribute_name with _ | an
          · simp [check_trigger_condition, ht, he, hsa, han]
          · rcases hlk : lookupKey attrs an with _ | v <;>
              simp [check_trigger_condition, ht, he, hsa, han, hlk, h]
      · simp [check_trigger_condition, ht, he]
    · rcases hnt : c.node_type with _ | t
      · exact absurd ⟨ht, hnt, h⟩ hexc
      · simp [check_trigger_condition, ht, h, hnt]
    · by_cases he : ctx.selected_node_type = c.node_type <;>
        simp [check_trigger_condition, ht, he, h]
  · rcases h with h | h <;> simp [check_trigger_condition, ht, h]
  · rcases h with h | h | h <;> simp [check_trigger_condition, ht, h]
  · rcases h with h | h <;> simp [check_trigger_condition, ht, h]

/-- Witness for the amended C5: a `node_selected` condition with absent
`node_types` checks false. -/
theorem missing_field_no_match_amended_witness :
    check_trigger_condition condMissingTypes ctx0 = false :=
  missing_field_no_match_amended condMissingTypes ctx0
    (Or.inl ⟨rfl, Or.inl rfl⟩) (by decide)

/-- Claim C10: in any non-`"all"` mode the displayed sequence is a
subsequence of the stored sequence (storage order preserved), and when the
stored uuids are distinct each note occurs at most once in it. -/
theorem automatic_mode_sublist_and_no_dup (notes : List Note)
    (mode : String) (ctx : DisplayContext) (hm : mode ≠ "all") :
    (get_notes_for_display notes mode ctx).Sublist notes ∧
    ((notes.map Note.uuid).Nodup →
      ∀ n : Note, (get_notes_for_display notes mode ctx).count n ≤ 1) := by
  unfold get_notes_for_display
  rw [if_neg hm, selectAutomatic_eq_filter]
  refine ⟨List.filter_sublist _, fun hnd n => ?_⟩
  have hnotes : notes.Nodup := hnd.of_map
  exact List.nodup_iff_count_le_one.mp (hnotes.filter _) n

/-- Witness for C10: two fixture notes in automatic mode under the `prod`
context. -/
theorem automatic_mode_sublist_and_no_dup_witness :
    (get_notes_for_display [notePinned, noteProd] "automatic" ctxProd).Sublist
      [notePinned, noteProd] ∧
    (([notePinned, noteProd].map Note.uuid).Nodup →
      ∀ n : Note,
        (get_notes_for_display [notePinned, noteProd] "automatic" ctxProd).count n
          ≤ 1) :=
  automatic_mode_sublist_and_no_dup [notePinned, noteProd] "automatic" ctxProd
    (by decide)

/-! Store lemmas: association-list dictionaries, insertion, load/save. -/

/-- Inserting a fresh key appends the entry at the end (Python dict
insertion order). -/
theorem insertEntry_fresh {α : Type} (l : List (String × α)) (k : String)
    (v : α) (h : lookupKey l k = none) : insertEntry l k v = l ++ [(k, v)] := by
  unfold insertEntry
  rw [h]
  rfl

/-- Lookup distributes over list append, preferring the left part. -/
theorem lookupKey_append {α : Type} (l₁ l₂ : List (String × α)) (k : String) :
    lookupKey (l₁ ++ l₂) k =
      match lookupKey l₁ k with
      | some v => some v
      | none => lookupKey l₂ k := by
  induction l₁ with
  | nil => rfl
  | cons p t ih => by_cases h : p.1 = k <;> simp [lookupKey, h, ih]

/-- Building a dictionary from records with pairwise-distinct fresh keys
appends them in order. -/
theorem foldl_insertEntry_fresh {α : Type} (key : α → String) (l : List α) :
    ∀ acc : List (String × α),
      (l.map key).Nodup →
      (∀ v ∈ l, lookupKey acc (key v) = none) →
      l.foldl (fun a v => insertEntry a (key v) v) acc =
        acc ++ l.map (fun v => (key v, v)) := by
  induction l with
  | nil => intro acc _ _; simp
  | cons x t ih =>
    intro acc hnd hfresh
    rw [List.map_cons, List.nodup_cons] at hnd
    obtain ⟨hx, hts⟩ := hnd
    rw [List.foldl_cons,
        insertEntry_fresh _ _ _ (hfresh x (List.mem_cons_self _ _)),
        ih (acc ++ [(key x, x)]) hts ?_]
    · simp
    · intro v hv
      rw [lookupKey_append, hfresh v (List.mem_cons_of_mem _ hv)]
      have hne : key x ≠ key v := by
        intro he
        exact hx (by rw [he]; exact List.mem_map_of_mem key hv)
      simp [lookupKey, hne]

/-- Rebuilding a dictionary from its saved record list reproduces it, for
a dictionary whose keys are the records' uuids and are distinct. -/
theorem load_dict_save {α : Type} (key : α → String) (l : List (String × α))
    (h1 : ∀ p ∈ l, p.1 = key p.2) (h2 : (l.map Prod.fst).Nodup) :
    load_dict key (l.map (fun p => p.2)) = l := by
  have hnd : ((l.map (fun p => p.2)).map key).Nodup := by
    rw [List.map_map]
    have he : l.map (key ∘ fun p => p.2) = l.map Prod.fst :=
      List.map_congr_left (fun p hp => (h1 p hp).symm)
    rw [he]
    exact h2
  unfold load_dict
  rw [foldl_insertEntry_fresh key _ [] hnd (fun v _ => rfl), List.map_map]
  have he2 : ∀ p ∈ l,
      ((fun v => (key v, v)) ∘ fun p : String × α => p.2) p = id p := by
    intro p hp
    simp [Function.comp, ← h1 p hp]
  rw [List.nil_append, List.map_congr_left he2, List.map_id]

/-- A key filtered out of an association list is no longer found. -/
theorem lookupKey_filter_ne {α : Type} (l : List (String × α)) (k : String) :
    lookupKey (l.filter (fun p => p.1 ≠ k)) k = none := by
  induction l with
  | nil => rfl
  | cons p t ih =>
    by_cases h : p.1 = k
    · simpa [List.filter_cons, h] using ih
    · simpa [List.filter_cons, h, lookupKey] using ih

/-- Replacing the entries of a key `k'` distinct from `k` cannot make `k`
found. -/
theorem lookupKey_map_replace_ne {α : Type} (k k' : String) (x : α)
    (hne : k' ≠ k) :
    ∀ acc : List (String × α), lookupKey acc k = none →
      lookupKey (acc.map (fun p => if p.1 = k' then (k', x) else p)) k
        = none := by
  intro acc
  induction acc with
  | nil => intro _; rfl
  | cons p t ih =>
    intro hacc
    unfold lookupKey at hacc
    by_cases hp : p.1 = k
    · rw [if_pos hp] at hacc; exact absurd hacc (by simp)
    · rw [if_neg hp] at hacc
      by_cases hpk : p.1 = k'
      · simp [List.map_cons, hpk, lookupKey, hne, ih hacc]
      · simp [List.map_cons, hpk, lookupKey, hp, ih hacc]

/-- Folding dictionary insertions of records whose keys all differ from
`k` never makes `k` found. -/
theorem lookupKey_foldl_insertEntry_none {α : Type} (key : α → String)
    (k : String) :
    ∀ (l : List α) (acc : List (String × α)),
      (∀ v ∈ l, key v ≠ k) → lookupKey acc k = none →
      lookupKey (l.foldl (fun a v => insertEntry a (key v) v) acc) k
        = none := by
  intro l
  induction l with
  | nil => intro acc _ hacc; simpa using hacc
  | cons x t ih =>
    intro acc h hacc
    rw [List.foldl_cons]
    refine ih _ (fun v hv => h v (List.mem_cons_of_mem _ hv)) ?_
    have hx : key x ≠ k := h x (List.mem_cons_self _ _)
    unfold insertEntry
    by_cases hs : (lookupKey acc (key x)).isSome
    · rw [if_pos hs]
      exact lookupKey_map_replace_ne k (key x) x hx acc hacc
    · rw [if_neg hs, lookupKey_append, hacc]
      simp [lookupKey, hx]

/-- A key belonging to none of the loaded records is absent from the
loaded dictionary. -/
theorem lookupKey_load_dict_none {α : Type} (key : α → String) (l : List α)
    (k : String) (h : ∀ v ∈ l, key v ≠ k) :
    lookupKey (load_dict key l) k = none :=
  lookupKey_foldl_insertEntry_none key k l [] h rfl

/-! Field-update lemmas for `update_note`. -/

/-- Setting a keyword whose name differs from `f` leaves the field read
through `f` unchanged. -/
theorem getattrNote_setattrNote_ne (m : Note) (kv : String × FieldValue)
    (f : String) (hf : f ≠ kv.1) :
    getattrNote (setattrNote m kv) f = getattrNote m f := by
  obtain ⟨k, v⟩ := kv
  simp only at hf
  by_cases h1 : k = "uuid"
  · subst h1; cases v <;> simp [setattrNote, getattrNote, hf]
  · by_cases h2 : k = "folder_uuid"
    · subst h2; cases v <;> simp [setattrNote, getattrNote, hf]
    · by_cases h3 : k = "content"
      · subst h3; cases v <;> simp [setattrNote, getattrNote, hf]
      · by_cases h4 : k = "format_style"
        · subst h4; cases v <;> simp [setattrNote, getattrNote, hf]
        · by_cases h5 : k = "trigger_conditions"
          · subst h5; cases v <;> simp [setattrNote, getattrNote, hf]
          · by_cases h6 : k = "pinned"
            · subst h6; cases v <;> simp [setattrNote, getattrNote, hf]
            · by_cases h7 : k = "name"
              · subst h7; cases v <;> simp [setattrNote, getattrNote, hf]
              · by_cases h8 : k = "tags"
                · subst h8; cases v <;> simp [setattrNote, getattrNote, hf]
                · simp [setattrNote, h1, h2, h3, h4, h5, h6, h7, h8]

/-- A keyword whose name is not a `Note` attribute is a no-op, the
`hasattr` guard of the source. -/
theorem setattrNote_unrecognized (m : Note) (k : String) (v : FieldValue)
    (hk : k ∉ noteFieldNames) : setattrNote m (k, v) = m := by
  simp only [noteFieldNames, List.mem_cons, List.not_mem_nil, or_false,
    not_or] at hk
  obtain ⟨h1, h2, h3, h4, h5, h6, h7, h8⟩ := hk
  unfold setattrNote
  simp [h1, h2, h3, h4, h5, h6, h7, h8]

/-- A recognized keyword pair sets exactly the named field to the supplied
value. -/
theorem getattr_setattr_recognized (m : Note) (k : String) (v : FieldValue)
    (h : recognizedPair (k, v) = true) :
    getattrNote (setattrNote m (k, v)) k = some v := by
  cases v <;> simp only [recognizedPair, Bool.or_eq_true, decide_eq_true_eq] at h
  · rcases h with ((h | h) | h) | h <;> subst h <;> simp [setattrNote, getattrNote]
  · subst h; simp [setattrNote, getattrNote]
  · subst h; simp [setattrNote, getattrNote]
  · subst h; simp [setattrNote, getattrNote]
  · subst h; simp [setattrNote, getattrNote]

/-- A field named by none of the keyword arguments is unchanged by the
whole update loop. -/
theorem getattrNote_foldl_ne (f : String) :
    ∀ (kwargs : List (String × FieldValue)) (m : Note),
      f ∉ kwargs.map Prod.fst →
      getattrNote (kwargs.foldl setattrNote m) f = getattrNote m f := by
  intro kwargs
  induction kwargs with
  | nil => intro m _; rfl
  | cons kv t ih =>
    intro m hf
    rw [List.map_cons, List.mem_cons] at hf
    push_neg at hf
    rw [List.foldl_cons, ih _ hf.2, getattrNote_setattrNote_ne m kv f hf.1]

/-- Claim C6: deleting an existing folder nulls `folder_uuid` on every
note that referenced it and removes the folder, which is then also absent
when the persisted folder snapshot is loaded back; deleting an unknown
folder id reports failure and changes nothing. -/
theorem delete_folder_clears_references (st : ManagerState) (fid : String)
    (hw : ∀ p ∈ st.folders, p.1 = p.2.uuid) :
    (lookupKey st.folders fid = none → delete_folder st fid = (false, st)) ∧
    (lookupKey st.folders fid ≠ none →
      (delete_folder st fid).1 = true ∧
      (∀ p ∈ (delete_folder st fid).2.notes, p.2.folder_uuid ≠ some fid) ∧
      lookupKey (delete_folder st fid).2.folders fid = none ∧
      lookupKey (load_folders (save_folders (delete_folder st fid).2.folders))
        fid = none) := by
  constructor
  · intro h
    unfold delete_folder
    rw [h]
  · intro hf
    obtain ⟨f, hf⟩ := Option.ne_none_iff_exists'.mp hf
    unfold delete_folder
    rw [hf]
    refine ⟨rfl, ?_, ?_, ?_⟩
    · intro p hp
      rw [List.mem_map] at hp
      obtain ⟨q, hq, hpq⟩ := hp
      by_cases hqf : q.2.folder_uuid = some fid
      · rw [if_pos hqf] at hpq
        rw [← hpq]
        simp
      · rw [if_neg hqf] at hpq
        rw [← hpq]
        exact hqf
    · exact lookupKey_filter_ne st.folders fid
    · apply lookupKey_load_dict_none
      intro v hv
      rw [save_folders, List.mem_map] at hv
      obtain ⟨q, hq, hqv⟩ := hv
      rw [List.mem_filter] at hq
      obtain ⟨hqmem, hqne⟩ := hq
      have hne : q.1 ≠ fid := by simpa using hqne
      rw [← hqv, ← hw q hqmem]
      exact hne

/-- Witness for C6: deleting folder `f1` from the fixture state that holds
it and a note filed under it. -/
theorem delete_folder_clears_references_witness :
    (lookupKey stWithFolder.folders "f1" = none →
      delete_folder stWithFolder "f1" = (false, stWithFolder)) ∧
    (lookupKey stWithFolder.folders "f1" ≠ none →
      (delete_folder stWithFolder "f1").1 = true ∧
      (∀ p ∈ (delete_folder stWithFolder "f1").2.notes,
        p.2.folder_uuid ≠ some "f1") ∧
      lookupKey (delete_folder stWithFolder "f1").2.folders "f1" = none ∧
      lookupKey
        (load_folders (save_folders (delete_folder stWithFolder "f1").2.folders))
        "f1" = none) :=
  delete_folder_clears_references stWithFolder "f1" (by decide)

/-- Claim C7: saving well-formed note and folder collections and loading
the snapshots back reproduces them record for record (trigger conditions
included). -/
theorem save_load_roundtrip (notes : List (String × Note))
    (folders : List (String × Folder))
    (hn1 : ∀ p ∈ notes, p.1 = p.2.uuid) (hn2 : (notes.map Prod.fst).Nodup)
    (hf1 : ∀ p ∈ folders, p.1 = p.2.uuid) (hf2 : (folders.map Prod.fst).Nodup) :
    load_notes (save_notes notes) = notes ∧
    load_folders (save_folders folders) = folders :=
  ⟨load_dict_save Note.uuid notes hn1 hn2,
   load_dict_save Folder.uuid folders hf1 hf2⟩

/-- Witness for C7: the fixture collections survive a save/load
round-trip. -/
theorem save_load_roundtrip_witness :
    load_notes (save_notes ns0) = ns0 ∧ load_folders (save_folders fs0) = fs0 :=
  save_load_roundtrip ns0 fs0 (by decide) (by decide) (by decide) (by decide)

/-- Claim C8: `update_note` on an unknown id returns failure and changes
nothing; on a known id it returns success, leaves the folders and the
other notes alone, and rewrites the target note by the keyword list, where
a keyword that is not a `Note` attribute is a no-op, a field named by no
keyword keeps its value, and a recognized keyword sets exactly its
field. -/
theorem update_note_partial_update (st : ManagerState) (id : String)
    (kwargs : List (String × FieldValue)) (m : Note) (k fname k2 : String)
    (v v2 : FieldValue)
    (hk : k ∉ noteFieldNames)
    (hfname : fname ∉ kwargs.map Prod.fst)
    (hrec : recognizedPair (k2, v2) = true) :
    (lookupKey st.notes id = none → update_note st id kwargs = (false, st)) ∧
    ((lookupKey st.notes id).isSome →
      (update_note st id kwargs).1 = true ∧
      (update_note st id kwargs).2.folders = st.folders ∧
      (update_note st id kwargs).2.notes =
        st.notes.map (fun p =>
          if p.1 = id then (p.1, kwargs.foldl setattrNote p.2) else p)) ∧
    setattrNote m (k, v) = m ∧
    getattrNote (kwargs.foldl setattrNote m) fname = getattrNote m fname ∧
    getattrNote (setattrNote m (k2, v2)) k2 = some v2 := by
  refine ⟨?_, ?_, setattrNote_unrecognized m k v hk,
    getattrNote_foldl_ne fname kwargs m hfname,
    getattr_setattr_recognized m k2 v2 hrec⟩
  · intro h
    unfold update_note
    rw [h]
  · intro hs
    obtain ⟨n, hn⟩ := Option.isSome_iff_exists.mp hs
    unfold update_note
    rw [hn]
    exact ⟨rfl, rfl, rfl⟩

/-- Witness for C8: updating the fixture note's `content` while passing
the unrecognized keyword `bogus`. -/
theorem update_note_partial_update_witness :
    (lookupKey stOneNote.notes "n2" = none →
      update_note stOneNote "n2"
        [("content", .vStr "new"), ("bogus", .vStr "zzz")] =
        (false, stOneNote)) ∧
    ((lookupKey stOneNote.notes "n2").isSome →
      (update_note stOneNote "n2"
        [("content", .vStr "new"), ("bogus", .vStr "zzz")]).1 = true ∧
      (update_note stOneNote "n2"
        [("content", .vStr "new"), ("bogus", .vStr "zzz")]).2.folders =
          stOneNote.folders ∧
      (update_note stOneNote "n2"
        [("content", .vStr "new"), ("bogus", .vStr "zzz")]).2.notes =
        stOneNote.notes.map (fun p =>
          if p.1 = "n2" then
            (p.1, [("content", FieldValue.vStr "new"),
                   ("bogus", FieldValue.vStr "zzz")].foldl setattrNote p.2)
          else p)) ∧
    setattrNote noteNoCond ("bogus", .vStr "zzz") = noteNoCond ∧
    getattrNote
      ([("content", FieldValue.vStr "new"),
        ("bogus", FieldValue.vStr "zzz")].foldl setattrNote noteNoCond)
      "name" = getattrNote noteNoCond "name" ∧
    getattrNote (setattrNote noteNoCond ("content", .vStr "new")) "content" =
      some (.vStr "new") :=
  update_note_partial_update stOneNote "n2"
    [("content", .vStr "new"), ("bogus", .vStr "zzz")] noteNoCond
    "bogus" "name" "content" (.vStr "zzz") (.vStr "new")
    (by decide) (by decide) (by decide)

/-- Claim C9 demonstration: when the underlying write of the notes
snapshot raises, `update_note` still reports success to its caller — the
exception is only printed by `_save_notes` — so the persistence failure
is not surfaced as an error. -/
theorem update_note_reports_success_despite_failed_write :
    (update_note_with_io stOneNote "n2" [("content", .vStr "edited")]
        (.ioError "disk full")).1 = true ∧
    (update_note_with_io stOneNote "n2" [("content", .vStr "edited")]
        (.ioError "disk full")).2.2 =
      ["AutoNotes: Error saving notes: disk full"] :=
  ⟨rfl, rfl⟩

end AutoNotes
